import Mathlib

/-!
# Verification of the cache-aside product service (`src/main.py`)

Shallow embedding of the FastAPI product service: an in-memory record
store (`PRODUCTS_DB`), a best-effort cache with health flags modelling the
Redis connection (`connected` ∧ ping, and per-operation success flags for
GET/SET/DELETE), and the three operations `get_product`, `update_product`
and `invalidate_cache`.  Each operation returns its caller-visible result,
the successor state, and a trace of store/cache events, which lets us state
frame conditions (what a call does and does not touch).
-/

/-- A product record: `{"id": ..., "name": ..., "price": ...}`.
Prices (Python floats, used only for storage and comparison, never
arithmetic) are modelled as rationals. -/
structure Record where
  id : Nat
  name : String
  price : Rat
deriving DecidableEq

/-- The `ProductUpdate` pydantic model: both fields optional, `None`
meaning "leave unchanged". -/
structure ProductUpdate where
  name : Option String
  price : Option Rat
deriving DecidableEq

/-- A value stored in the cache under some key: either a serialized record
(`json.dumps` of a product dict) or a payload on which deserialization /
validation fails (`json.loads` or `Product(**data)` raises, or the falsy
empty string). -/
inductive Payload where
  | good (r : Record)
  | corrupt
deriving DecidableEq

/-- Caller-visible errors: `HTTPException(status_code=404, detail="Product
not found")`. -/
inductive ApiError where
  | notFound
deriving DecidableEq

/-- Observable store/cache effects of one call, in order. -/
inductive Event where
  | storeGet (productId : Nat)
  | storePut (productId : Nat) (r : Record)
  | cacheGet (key : String)
  | cacheSet (key : String) (p : Payload) (ttl : Nat)
  | cacheDel (key : String)
  | scheduleInvalidate (productId : Nat)
deriving DecidableEq

/-- Association-list lookup, first binding wins (models Python dict /
Redis key lookup; `dictSet` shadows older bindings). -/
def dictGet {α β : Type} [DecidableEq α] (key : α) : List (α × β) → Option β
  | [] => none
  | (k, v) :: rest => if k = key then some v else dictGet key rest

/-- Association-list write (models `d[k] = v` and Redis `SET`). -/
def dictSet {α β : Type} [DecidableEq α] (key : α) (v : β) (d : List (α × β)) :
    List (α × β) :=
  (key, v) :: d

/-- Removal of every binding of `key` (models Redis `DELETE`). -/
def delKey {α β : Type} [DecidableEq α] (key : α) : List (α × β) → List (α × β)
  | [] => []
  | (k, v) :: rest => if k = key then delKey key rest else (k, v) :: delKey key rest

/-- State of the cache layer: whether the global `redis` handle is set,
whether `ping` succeeds, whether each data operation succeeds (an
unset flag models that call raising, which the service swallows), and the
cached key/value data. -/
structure CacheState where
  connected : Bool
  pingOk : Bool
  getOk : Bool
  setOk : Bool
  delOk : Bool
  data : List (String × Payload)
deriving DecidableEq

/-- Combined state: the record store `PRODUCTS_DB` and the cache. -/
structure SysState where
  store : List (Nat × Record)
  cache : CacheState
deriving DecidableEq

instance {ε α : Type} [DecidableEq ε] [DecidableEq α] : DecidableEq (Except ε α) :=
  fun x y =>
    match x, y with
    | .error e, .error f =>
      if h : e = f then .isTrue (h ▸ rfl) else .isFalse (fun c => h (Except.error.inj c))
    | .ok a, .ok b =>
      if h : a = b then .isTrue (h ▸ rfl) else .isFalse (fun c => h (Except.ok.inj c))
    | .error _, .ok _ => .isFalse Except.noConfusion
    | .ok _, .error _ => .isFalse Except.noConfusion

/-- Result of one endpoint call: caller-visible outcome, successor state,
event trace. -/
structure CallResult where
  result : Except ApiError Record
  state : SysState
  events : List Event
deriving DecidableEq

/-- `CACHE_TTL = 60  # seconds`. -/
def CACHE_TTL : Nat := 60

/-- Decimal digit characters of `n`, most significant first, by repeated
division; structural recursion on a fuel argument so that it evaluates by
kernel reduction.  `decChars fuel 0 = []`. -/
def decChars : Nat → Nat → List Char
  | 0, _ => []
  | fuel + 1, n =>
    if n = 0 then [] else decChars fuel (n / 10) ++ [Nat.digitChar (n % 10)]

/-- The decimal string of a natural number, as Python `str(product_id)`
produces inside the f-string. -/
def natDecimal (n : Nat) : String :=
  if n = 0 then "0" else String.mk (decChars n n)

/-- `_product_cache_key`: the string `f"product:{product_id}"`. -/
def _product_cache_key (productId : Nat) : String :=
  "product:" ++ natDecimal productId

/-- `get_redis_connection` returns a live connection exactly when the
global handle is set and the `ping` succeeds; on a failed ping (or unset
handle) it returns `None` without raising. -/
def get_redis_connection (c : CacheState) : Bool :=
  c.connected && c.pingOk

/-- The successful outcome of `get_product`'s try-block: a record is
produced exactly when a connection is live, the `GET` does not raise, a
value is present under the key, and it deserializes.  In every other case
(no connection, raising `GET`, miss, corrupt payload) the block falls
through to the store. -/
def cacheFastPath (c : CacheState) (key : String) : Option Record :=
  if get_redis_connection c && c.getOk then
    match dictGet key c.data with
    | some (Payload.good r) => some r
    | some Payload.corrupt => none
    | none => none
  else none

/-- `GET /products/{product_id}` (`get_product`): try the cache first
(any cache exception is swallowed and a corrupt payload fails
deserialization, both falling through), then the store; on a store hit,
best-effort repopulate the cache with TTL `CACHE_TTL`; 404 when the store
has no record. -/
def get_product (st : SysState) (productId : Nat) : CallResult :=
  let cacheKey := _product_cache_key productId
  let conn := get_redis_connection st.cache
  let cacheEvents := if conn then [Event.cacheGet cacheKey] else []
  match cacheFastPath st.cache cacheKey with
  | some r => { result := .ok r, state := st, events := cacheEvents }
  | none =>
    match dictGet productId st.store with
    | none =>
      { result := .error .notFound, state := st,
        events := cacheEvents ++ [Event.storeGet productId] }
    | some prod =>
      if conn && st.cache.setOk then
        { result := .ok prod,
          state := { st with cache := { st.cache with
            data := dictSet cacheKey (Payload.good prod) st.cache.data } },
          events := cacheEvents ++ [Event.storeGet productId,
            Event.cacheSet cacheKey (Payload.good prod) CACHE_TTL] }
      else
        { result := .ok prod, state := st,
          events := cacheEvents ++ [Event.storeGet productId] }

/-- `PUT /products/{product_id}` (`update_product`): 404 when the store
has no record; otherwise merge the provided fields onto a copy of the
current record, write it to the store synchronously, and schedule the
background cache invalidation. -/
def update_product (st : SysState) (productId : Nat) (update : ProductUpdate) :
    CallResult :=
  match dictGet productId st.store with
  | none =>
    { result := .error .notFound, state := st, events := [Event.storeGet productId] }
  | some existing =>
    let updated : Record :=
      { existing with
        name := update.name.getD existing.name,
        price := update.price.getD existing.price }
    { result := .ok updated,
      state := { st with store := dictSet productId updated st.store },
      events := [Event.storeGet productId, Event.storePut productId updated,
        Event.scheduleInvalidate productId] }

/-- `invalidate_cache` (the background task): best-effort delete of the
product's cache key; connection failure or a raising `DELETE` is
swallowed, leaving the state unchanged. -/
def invalidate_cache (st : SysState) (productId : Nat) : SysState × List Event :=
  if get_redis_connection st.cache && st.cache.delOk then
    ({ st with cache := { st.cache with
        data := delKey (_product_cache_key productId) st.cache.data } },
     [Event.cacheDel (_product_cache_key productId)])
  else (st, [])

/-- The initial `PRODUCTS_DB` contents. -/
def laptopRec : Record := { id := 1, name := "Laptop", price := 1000 }

def smartphoneRec : Record := { id := 2, name := "Smartphone", price := 500 }

def headphonesRec : Record := { id := 3, name := "Headphones", price := 100 }

def PRODUCTS_DB : List (Nat × Record) :=
  [(1, laptopRec), (2, smartphoneRec), (3, headphonesRec)]

/-- A fully healthy cache with the given data. -/
def healthyCache (d : List (String × Payload)) : CacheState :=
  { connected := true, pingOk := true, getOk := true, setOk := true,
    delOk := true, data := d }

/-- A cache whose backend is down (the global handle is unset). -/
def downCache : CacheState :=
  { connected := false, pingOk := false, getOk := false, setOk := false,
    delOk := false, data := [] }

/-- The caller-visible outcome of the pure store path (what `get_product`
returns when the cache contributes nothing): the record when present,
404 otherwise. -/
def db_result (st : SysState) (productId : Nat) : Except ApiError Record :=
  match dictGet productId st.store with
  | some r => .ok r
  | none => .error .notFound

/-- The record `update_product` builds from the current record and the
patch: provided fields overwrite, absent fields are kept, the id is kept. -/
def mergeRecord (r : Record) (p : ProductUpdate) : Record :=
  { r with name := p.name.getD r.name, price := p.price.getD r.price }

/-- The empty patch `{}`: no field provided. -/
def emptyUpdate : ProductUpdate := { name := none, price := none }

/-- A record differing from the store's current record for id 1, sitting
in an otherwise healthy cache: a stale snapshot. -/
def staleRec : Record := { id := 1, name := "Laptop", price := 999 }

def staleState : SysState :=
  { store := PRODUCTS_DB, cache := healthyCache [("product:1", Payload.good staleRec)] }

/-- A record cached under a key whose id has no record in the store. -/
def phantomRec : Record := { id := 9, name := "Phantom", price := 1 }

def phantomState : SysState :=
  { store := PRODUCTS_DB, cache := healthyCache [("product:9", Payload.good phantomRec)] }

/-- A healthy cache already holding the serialized store record for id 1. -/
def hitState : SysState :=
  { store := PRODUCTS_DB, cache := healthyCache [("product:1", Payload.good laptopRec)] }

/-! ### Operation sequences (for the reachable-state invariant)

A reachable state is produced by a sequence of endpoint calls
(`fetch`/`update`), runs of the background invalidation task, backend TTL
expiries, and changes to the cache backend's health.  `hist` accumulates
every `(id, record)` pair the store has ever associated (the initial
contents plus each synchronous `update` write). -/

inductive Op where
  | fetch (productId : Nat)
  | update (productId : Nat) (p : ProductUpdate)
  | invalidate (productId : Nat)
  | expire (key : String)
  | setHealth (connected pingOk getOk setOk delOk : Bool)

structure TraceState where
  sys : SysState
  hist : List (Nat × Record)

def stepOp (ts : TraceState) : Op → TraceState
  | .fetch i => { ts with sys := (get_product ts.sys i).state }
  | .update i p =>
    let out := update_product ts.sys i p
    { sys := out.state,
      hist := match out.result with
        | .ok u => (i, u) :: ts.hist
        | .error _ => ts.hist }
  | .invalidate i => { ts with sys := (invalidate_cache ts.sys i).1 }
  | .expire k =>
    { ts with sys := { ts.sys with cache := { ts.sys.cache with
        data := delKey k ts.sys.cache.data } } }
  | .setHealth c pg g s d =>
    { ts with sys := { ts.sys with cache := { ts.sys.cache with
        connected := c, pingOk := pg, getOk := g, setOk := s, delOk := d } } }

/-- Initial program state: a given store, connected backend, empty cache. -/
def initTS (store0 : List (Nat × Record)) : TraceState :=
  { sys := { store := store0, cache := healthyCache [] }, hist := store0 }

def runOps (store0 : List (Nat × Record)) (ops : List Op) : TraceState :=
  ops.foldl stepOp (initTS store0)

/-- A scenario for the reachability claim: populate the cache by a fetch,
then update the store, leaving the cache entry stale until invalidation. -/
def c8ops : List Op :=
  [Op.fetch 1, Op.update 1 { name := none, price := some 1200 }]

/-- The reachability invariant: every record the store currently holds,
and every deserializable record the cache holds under a product key, was
at some point the store's record for that id. -/
def GoodTrace (ts : TraceState) : Prop :=
  (∀ i r, dictGet i ts.sys.store = some r → (i, r) ∈ ts.hist) ∧
  (∀ i r, dictGet (_product_cache_key i) ts.sys.cache.data =
      some (Payload.good r) → (i, r) ∈ ts.hist)

/-! ### Injectivity of the cache key -/

theorem digitChar_inj_fin :
    ∀ p : Fin 10 × Fin 10, Nat.digitChar p.1.val = Nat.digitChar p.2.val → p.1 = p.2 := by
  decide

theorem digitChar_inj {a b : Nat} (ha : a < 10) (hb : b < 10)
    (h : Nat.digitChar a = Nat.digitChar b) : a = b := by
  have := digitChar_inj_fin (⟨a, ha⟩, ⟨b, hb⟩) h
  exact congrArg Fin.val this

theorem map_digitChar_inj : ∀ (l₁ l₂ : List Nat), (∀ x ∈ l₁, x < 10) →
    (∀ x ∈ l₂, x < 10) → l₁.map Nat.digitChar = l₂.map Nat.digitChar → l₁ = l₂
  | [], [], _, _, _ => rfl
  | [], _ :: _, _, _, h => by simp at h
  | _ :: _, [], _, _, h => by simp at h
  | a :: l₁, b :: l₂, h₁, h₂, h => by
    simp only [List.map_cons, List.cons.injEq] at h
    have hab : a = b := digitChar_inj (h₁ a (by simp)) (h₂ b (by simp)) h.1
    rw [hab, map_digitChar_inj l₁ l₂ (fun x hx => h₁ x (by simp [hx]))
      (fun x hx => h₂ x (by simp [hx])) h.2]

theorem decChars_eq : ∀ (fuel n : Nat), n ≤ fuel →
    decChars fuel n = ((Nat.digits 10 n).map Nat.digitChar).reverse
  | 0, n, h => by
    have : n = 0 := Nat.le_zero.mp h
    subst this
    simp [decChars]
  | fuel + 1, n, h => by
    by_cases hn : n = 0
    · subst hn; simp [decChars]
    · have hd : Nat.digits 10 n = n % 10 :: Nat.digits 10 (n / 10) :=
        Nat.digits_def' (by norm_num) (Nat.pos_of_ne_zero hn)
      have hdiv : n / 10 ≤ fuel := by
        have := Nat.div_lt_self (Nat.pos_of_ne_zero hn) (by norm_num : 1 < 10)
        omega
      rw [show decChars (fuel + 1) n =
          (if n = 0 then [] else decChars fuel (n / 10) ++ [Nat.digitChar (n % 10)]) from rfl,
        if_neg hn, decChars_eq fuel (n / 10) hdiv, hd]
      simp

theorem natDecimal_eq_digits (n : Nat) (hn : n ≠ 0) :
    natDecimal n = String.mk (((Nat.digits 10 n).map Nat.digitChar).reverse) := by
  rw [natDecimal, if_neg hn, decChars_eq n n le_rfl]

theorem natDecimal_ne_zero_str (n : Nat) (hn : n ≠ 0) : natDecimal n ≠ "0" := by
  rw [natDecimal_eq_digits n hn]
  intro h
  have hl : ((Nat.digits 10 n).map Nat.digitChar).reverse = ['0'] :=
    congrArg String.data h
  have hmap : (Nat.digits 10 n).map Nat.digitChar = ['0'] := by
    have := congrArg List.reverse hl
    simpa using this
  cases hL : Nat.digits 10 n with
  | nil => rw [hL] at hmap; simp at hmap
  | cons d t =>
    rw [hL] at hmap
    simp only [List.map_cons, List.cons.injEq, List.map_eq_nil_iff] at hmap
    have hd10 : d < 10 := Nat.digits_lt_base (by norm_num) (hL ▸ List.mem_cons_self d t)
    have hd0 : d = 0 := digitChar_inj hd10 (by norm_num) hmap.1
    have : n = 0 := by
      have hof := Nat.ofDigits_digits 10 n
      rw [hL, hmap.2, hd0] at hof
      simpa [Nat.ofDigits] using hof.symm
    exact hn this

theorem natDecimal_injective (a b : Nat) (h : natDecimal a = natDecimal b) : a = b := by
  by_cases ha : a = 0
  · by_cases hb : b = 0
    · rw [ha, hb]
    · subst ha
      rw [show natDecimal 0 = "0" from rfl] at h
      exact absurd h.symm (natDecimal_ne_zero_str b hb)
  · by_cases hb : b = 0
    · subst hb
      rw [show natDecimal 0 = "0" from rfl] at h
      exact absurd h (natDecimal_ne_zero_str a ha)
    · rw [natDecimal_eq_digits a ha, natDecimal_eq_digits b hb] at h
      have hl : ((Nat.digits 10 a).map Nat.digitChar).reverse =
          ((Nat.digits 10 b).map Nat.digitChar).reverse := congrArg String.data h
      have h2 : (Nat.digits 10 a).map Nat.digitChar =
          (Nat.digits 10 b).map Nat.digitChar := by
        have := congrArg List.reverse hl
        simpa using this
      have hdig : Nat.digits 10 a = Nat.digits 10 b :=
        map_digitChar_inj _ _ (fun x hx => Nat.digits_lt_base (by norm_num) hx)
          (fun x hx => Nat.digits_lt_base (by norm_num) hx) h2
      have hA := Nat.ofDigits_digits 10 a
      have hB := Nat.ofDigits_digits 10 b
      rw [hdig] at hA
      exact hA.symm.trans hB

theorem string_append_cancel {p s t : String} (h : p ++ s = p ++ t) : s = t := by
  cases s with | mk ds =>
  cases t with | mk dt =>
  cases p with | mk dp =>
  have h2 : dp ++ ds = dp ++ dt := congrArg String.data h
  rw [List.append_cancel_left h2]

theorem product_cache_key_injective (a b : Nat)
    (h : _product_cache_key a = _product_cache_key b) : a = b :=
  natDecimal_injective a b
    (string_append_cancel (p := "product:") h)

/-! ### Basic lemmas about the embedding -/

theorem dictGet_mem {α β : Type} [DecidableEq α] (key : α) :
    ∀ (l : List (α × β)) (v : β), dictGet key l = some v → (key, v) ∈ l
  | [], v, h => by simp [dictGet] at h
  | (k, w) :: rest, v, h => by
    rw [show dictGet key ((k, w) :: rest) =
        (if k = key then some w else dictGet key rest) from rfl] at h
    by_cases hk : k = key
    · rw [if_pos hk] at h
      cases h
      subst hk
      exact List.mem_cons_self _ _
    · rw [if_neg hk] at h
      exact List.mem_cons_of_mem _ (dictGet_mem key rest v h)

theorem dictGet_delKey {α β : Type} [DecidableEq α] (key k : α) :
    ∀ (d : List (α × β)),
      dictGet k (delKey key d) = if k = key then none else dictGet k d
  | [] => by simp [dictGet, delKey]
  | (k', v) :: rest => by
    have ih := dictGet_delKey key k rest
    by_cases h1 : k' = key
    · rw [show delKey key ((k', v) :: rest) = delKey key rest from by
        simp [delKey, h1], ih]
      by_cases h2 : k = key
      · simp [h2]
      · have hne : ¬ k' = k := by rw [h1]; exact fun c => h2 c.symm
        simp [h2, dictGet, hne]
    · rw [show delKey key ((k', v) :: rest) = (k', v) :: delKey key rest from by
        simp [delKey, h1]]
      by_cases h3 : k' = k
      · subst h3
        have h2 : ¬ k' = key := h1
        simp [dictGet, h2]
      · simp [dictGet, h3, ih]

theorem cacheFastPath_some_iff (c : CacheState) (key : String) (r : Record) :
    cacheFastPath c key = some r ↔
      (get_redis_connection c && c.getOk) = true ∧
        dictGet key c.data = some (Payload.good r) := by
  unfold cacheFastPath
  by_cases h : (get_redis_connection c && c.getOk) = true
  · rw [if_pos h]
    cases hd : dictGet key c.data with
    | none => simp [h, hd]
    | some p => cases p <;> simp [h, hd]
  · rw [if_neg h]
    simp [h]

theorem get_product_hit (st : SysState) (i : Nat) (r : Record)
    (h : cacheFastPath st.cache (_product_cache_key i) = some r) :
    get_product st i =
      { result := .ok r, state := st,
        events := [Event.cacheGet (_product_cache_key i)] } := by
  have h1 := ((cacheFastPath_some_iff st.cache (_product_cache_key i) r).mp h).1
  have hconn : get_redis_connection st.cache = true := by
    cases hcg : get_redis_connection st.cache
    · rw [hcg] at h1; simp at h1
    · rfl
  simp only [get_product, h, hconn]
  simp

theorem get_product_miss_result (st : SysState) (i : Nat)
    (h : cacheFastPath st.cache (_product_cache_key i) = none) :
    (get_product st i).result = db_result st i := by
  simp only [get_product, h, db_result]
  cases hs : dictGet i st.store with
  | none => simp
  | some prod =>
    by_cases hc : (get_redis_connection st.cache && st.cache.setOk) = true <;>
      simp [hc]

theorem get_product_state_store (st : SysState) (i : Nat) :
    (get_product st i).state.store = st.store := by
  simp only [get_product]
  cases h : cacheFastPath st.cache (_product_cache_key i) with
  | some r => simp
  | none =>
    cases hs : dictGet i st.store with
    | none => simp
    | some prod =>
      by_cases hc : (get_redis_connection st.cache && st.cache.setOk) = true <;>
        simp [hc]

theorem get_product_cache_cases (st : SysState) (i : Nat) :
    (get_product st i).state.cache.data = st.cache.data ∨
      ∃ prod, dictGet i st.store = some prod ∧
        (get_product st i).state.cache.data =
          dictSet (_product_cache_key i) (Payload.good prod) st.cache.data := by
  simp only [get_product]
  cases h : cacheFastPath st.cache (_product_cache_key i) with
  | some r => left; simp
  | none =>
    cases hs : dictGet i st.store with
    | none => left; simp
    | some prod =>
      by_cases hc : (get_redis_connection st.cache && st.cache.setOk) = true
      · right; exact ⟨prod, rfl, by simp [hc]⟩
      · left; simp [hc]

theorem get_product_result_cases (st : SysState) (i : Nat) (r : Record)
    (h : (get_product st i).result = .ok r) :
    dictGet (_product_cache_key i) st.cache.data = some (Payload.good r) ∨
      dictGet i st.store = some r := by
  cases hf : cacheFastPath st.cache (_product_cache_key i) with
  | some r2 =>
    rw [get_product_hit st i r2 hf] at h
    have hr : r2 = r := Except.ok.inj h
    exact Or.inl (hr ▸ ((cacheFastPath_some_iff st.cache _ r2).mp hf).2)
  | none =>
    rw [get_product_miss_result st i hf] at h
    right
    unfold db_result at h
    cases hs : dictGet i st.store with
    | none => rw [hs] at h; cases h
    | some prod => rw [hs] at h; cases h; rfl

/-- `update_product` on a present record: the merged record, the
synchronous store write, and the scheduled invalidation, exactly. -/
theorem update_product_some (st : SysState) (i : Nat) (p : ProductUpdate)
    (r : Record) (h : dictGet i st.store = some r) :
    update_product st i p =
      { result := .ok (mergeRecord r p),
        state := { st with store := dictSet i (mergeRecord r p) st.store },
        events := [Event.storeGet i, Event.storePut i (mergeRecord r p),
          Event.scheduleInvalidate i] } := by
  simp only [update_product, h, mergeRecord]

/-- `update_product` on an absent record: 404 and nothing else. -/
theorem update_product_none (st : SysState) (i : Nat) (p : ProductUpdate)
    (h : dictGet i st.store = none) :
    update_product st i p =
      { result := .error .notFound, state := st,
        events := [Event.storeGet i] } := by
  simp only [update_product, h]

theorem cacheFastPath_none_iff (c : CacheState) (key : String) :
    cacheFastPath c key = none ↔
      (get_redis_connection c && c.getOk) = false ∨
        dictGet key c.data = none ∨
        dictGet key c.data = some Payload.corrupt := by
  unfold cacheFastPath
  by_cases h : (get_redis_connection c && c.getOk) = true
  · rw [if_pos h]
    cases hd : dictGet key c.data with
    | none => simp [h, hd]
    | some p => cases p <;> simp [h, hd]
  · rw [if_neg h]
    simp only [Bool.not_eq_true] at h
    simp [h]

theorem invalidate_cache_store (st : SysState) (i : Nat) :
    (invalidate_cache st i).1.store = st.store := by
  unfold invalidate_cache
  split <;> rfl

theorem invalidate_cache_removes (st : SysState) (i : Nat)
    (h : (get_redis_connection st.cache && st.cache.delOk) = true) :
    dictGet (_product_cache_key i) (invalidate_cache st i).1.cache.data = none := by
  unfold invalidate_cache
  rw [if_pos h]
  simp [dictGet_delKey]

theorem invalidate_cache_cache_cases (st : SysState) (i : Nat) :
    (invalidate_cache st i).1.cache.data = st.cache.data ∨
      (invalidate_cache st i).1.cache.data =
        delKey (_product_cache_key i) st.cache.data := by
  unfold invalidate_cache
  split
  · right; rfl
  · left; rfl

theorem mergeRecord_empty (r : Record) : mergeRecord r emptyUpdate = r := by
  cases r
  simp [mergeRecord, emptyUpdate]

theorem get_product_events_cases (st : SysState) (i : Nat) :
    (get_product st i).events = [Event.cacheGet (_product_cache_key i)] ∨
    (get_product st i).events = [Event.storeGet i] ∨
    (get_product st i).events =
      [Event.cacheGet (_product_cache_key i), Event.storeGet i] ∨
    ∃ prod, (get_product st i).events =
      [Event.cacheGet (_product_cache_key i), Event.storeGet i,
        Event.cacheSet (_product_cache_key i) (Payload.good prod) CACHE_TTL] := by
  cases hf : cacheFastPath st.cache (_product_cache_key i) with
  | some r =>
    left
    rw [get_product_hit st i r hf]
  | none =>
    simp only [get_product, hf]
    cases hconn : get_redis_connection st.cache with
    | false =>
      cases hs : dictGet i st.store with
      | none => right; left; simp
      | some prod => right; left; simp
    | true =>
      cases hs : dictGet i st.store with
      | none => right; right; left; simp
      | some prod =>
        by_cases hset : st.cache.setOk = true
        · right; right; right
          exact ⟨prod, by simp [hset]⟩
        · right; right; left
          simp only [Bool.not_eq_true] at hset
          simp [hset]

/-! ## The claims -/

/-- Claim C1, counterexample: with a healthy cache holding a stale
deserializable snapshot under `product:1`, `fetch(1)` returns the stale
snapshot, not the store's current record — and making the cache
unavailable changes the returned value. -/
theorem C1_counterexample :
    dictGet 1 staleState.store = some laptopRec ∧
    (get_product staleState 1).result = .ok staleRec ∧
    staleRec ≠ laptopRec ∧
    (get_product { staleState with cache := downCache } 1).result =
      .ok laptopRec := by
  decide

/-- Claim C1 as amended: for every id with a record in the store,
`fetch(id)` returns the store's current record for every cache state —
healthy, unhealthy, or down — provided any deserializable cached value
under the id's key equals that record (in particular whenever the cache
holds no deserializable value for the key). -/
theorem C1_amended_fetch (st : SysState) (productId : Nat) (r : Record)
    (hstore : dictGet productId st.store = some r)
    (hcache : (get_redis_connection st.cache && st.cache.getOk) = true →
      ∀ r2, dictGet (_product_cache_key productId) st.cache.data =
        some (Payload.good r2) → r2 = r) :
    (get_product st productId).result = .ok r := by
  cases hf : cacheFastPath st.cache (_product_cache_key productId) with
  | some r2 =>
    obtain ⟨hcg, hd⟩ := (cacheFastPath_some_iff st.cache _ r2).mp hf
    rw [get_product_hit st productId r2 hf]
    exact congrArg Except.ok (hcache hcg r2 hd)
  | none =>
    rw [get_product_miss_result st productId hf]
    simp only [db_result, hstore]

/-- Claim C1, witness: id 2 is served from the store both with the cache
down and with the cache healthy but empty. -/
theorem C1_amended_fetch_witness :
    dictGet 2 PRODUCTS_DB = some smartphoneRec ∧
    (get_product { store := PRODUCTS_DB, cache := downCache } 2).result =
      .ok smartphoneRec ∧
    (get_product { store := PRODUCTS_DB, cache := healthyCache [] } 2).result =
      .ok smartphoneRec :=
  ⟨by decide,
   C1_amended_fetch _ 2 smartphoneRec (by decide)
     (fun hcg => absurd hcg (by decide)),
   C1_amended_fetch _ 2 smartphoneRec (by decide)
     (fun _ r2 hd => Option.noConfusion hd)⟩

/-- Claim C2, counterexample: id 9 has no record in the store, yet with a
healthy cache holding a deserializable value under `product:9`,
`fetch(9)` returns that value instead of failing with NotFound — so the
outcome is not independent of cache contents. -/
theorem C2_counterexample :
    dictGet 9 phantomState.store = none ∧
    (get_product phantomState 9).result = .ok phantomRec ∧
    (get_product phantomState 9).result ≠ .error ApiError.notFound := by
  decide

/-- Claim C2 as amended: for every id with no record in the store,
`fetch(id)` fails with NotFound whenever the cache yields no
deserializable value for the id's key — in particular both when the
cache is healthy but holds nothing under the key and when the cache
backend is down (whatever the cache then contains). -/
theorem C2_amended_not_found (st : SysState) (productId : Nat)
    (hstore : dictGet productId st.store = none)
    (hcache : (get_redis_connection st.cache && st.cache.getOk) = true →
      ∀ r, dictGet (_product_cache_key productId) st.cache.data ≠
        some (Payload.good r)) :
    (get_product st productId).result = .error ApiError.notFound := by
  cases hf : cacheFastPath st.cache (_product_cache_key productId) with
  | some r2 =>
    obtain ⟨hcg, hd⟩ := (cacheFastPath_some_iff st.cache _ r2).mp hf
    exact absurd hd (hcache hcg r2)
  | none =>
    rw [get_product_miss_result st productId hf]
    simp only [db_result, hstore]

/-- Claim C2, witness: id 9 yields NotFound with a healthy-but-empty
cache and with the cache down. -/
theorem C2_amended_not_found_witness :
    dictGet 9 PRODUCTS_DB = none ∧
    (get_product { store := PRODUCTS_DB, cache := healthyCache [] } 9).result =
      .error ApiError.notFound ∧
    (get_product { store := PRODUCTS_DB, cache := downCache } 9).result =
      .error ApiError.notFound :=
  ⟨by decide,
   C2_amended_not_found _ 9 (by decide) (fun _ r hd => Option.noConfusion hd),
   C2_amended_not_found _ 9 (by decide) (fun hcg => absurd hcg (by decide))⟩

/-- Claim C3: for every id with a record in the store and every patch,
`update(id, patch)` overwrites exactly the provided fields, keeps the
omitted fields and the id, writes the merged record to the store within
the call (the returned state holds it and the trace shows the put), and
returns the merged record. -/
theorem C3_update_merges (st : SysState) (productId : Nat) (p : ProductUpdate)
    (r : Record) (h : dictGet productId st.store = some r) :
    (update_product st productId p).result = .ok (mergeRecord r p) ∧
    dictGet productId (update_product st productId p).state.store =
      some (mergeRecord r p) ∧
    (∀ n, p.name = some n → (mergeRecord r p).name = n) ∧
    (p.name = none → (mergeRecord r p).name = r.name) ∧
    (∀ q, p.price = some q → (mergeRecord r p).price = q) ∧
    (p.price = none → (mergeRecord r p).price = r.price) ∧
    (mergeRecord r p).id = r.id ∧
    Event.storePut productId (mergeRecord r p) ∈
      (update_product st productId p).events := by
  rw [update_product_some st productId p r h]
  refine ⟨rfl, ?_, ?_, ?_, ?_, ?_, rfl, ?_⟩
  · simp [dictGet, dictSet]
  · intro n hn; simp [mergeRecord, hn]
  · intro hn; simp [mergeRecord, hn]
  · intro q hq; simp [mergeRecord, hq]
  · intro hq; simp [mergeRecord, hq]
  · simp

/-- Claim C3, witness: `update(2, {price: 550})` returns and stores
`{id: 2, name: "Smartphone", price: 550}`. -/
theorem C3_update_merges_witness :
    dictGet 2 PRODUCTS_DB = some smartphoneRec ∧
    (update_product { store := PRODUCTS_DB, cache := healthyCache [] } 2
        { name := none, price := some 550 }).result =
      .ok { id := 2, name := "Smartphone", price := 550 } :=
  ⟨by decide, by
    have h := C3_update_merges { store := PRODUCTS_DB, cache := healthyCache [] }
      2 { name := none, price := some 550 } smartphoneRec (by decide)
    rw [h.1]
    decide⟩

/-- Claim C5: when the cache holds a deserializable value for the key and
the connection and `GET` succeed, `fetch` returns the cached value with
the state unchanged and the store neither read nor written. -/
theorem C5_cache_hit_frame (st : SysState) (productId : Nat) (r : Record)
    (hconn : (get_redis_connection st.cache && st.cache.getOk) = true)
    (hhit : dictGet (_product_cache_key productId) st.cache.data =
      some (Payload.good r)) :
    get_product st productId =
      { result := .ok r, state := st,
        events := [Event.cacheGet (_product_cache_key productId)] } ∧
    (get_product st productId).state.store = st.store ∧
    (∀ j, Event.storeGet j ∉ (get_product st productId).events) ∧
    (∀ j u, Event.storePut j u ∉ (get_product st productId).events) := by
  have heq := get_product_hit st productId r
    ((cacheFastPath_some_iff st.cache _ r).mpr ⟨hconn, hhit⟩)
  refine ⟨heq, ?_, ?_, ?_⟩ <;> simp [heq]

/-- Claim C5, witness: a cached `product:1` is served without touching
the store. -/
theorem C5_cache_hit_frame_witness :
    dictGet (_product_cache_key 1) hitState.cache.data =
      some (Payload.good laptopRec) ∧
    get_product hitState 1 =
      { result := .ok laptopRec, state := hitState,
        events := [Event.cacheGet (_product_cache_key 1)] } :=
  ⟨by decide, (C5_cache_hit_frame hitState 1 laptopRec (by decide) (by decide)).1⟩

/-- Claim C6: the empty patch leaves the stored record unchanged, yet the
call still returns it and schedules the invalidation of the id's key,
whose run (with a live connection and a succeeding `DELETE`) removes
exactly that key. -/
theorem C6_empty_patch (st : SysState) (productId : Nat) (r : Record)
    (h : dictGet productId st.store = some r) :
    (update_product st productId emptyUpdate).result = .ok r ∧
    dictGet productId (update_product st productId emptyUpdate).state.store =
      some r ∧
    Event.scheduleInvalidate productId ∈
      (update_product st productId emptyUpdate).events ∧
    (∀ st2 : SysState, (get_redis_connection st2.cache && st2.cache.delOk) = true →
      dictGet (_product_cache_key productId)
        (invalidate_cache st2 productId).1.cache.data = none) := by
  rw [update_product_some st productId emptyUpdate r h, mergeRecord_empty r]
  refine ⟨rfl, ?_, ?_, ?_⟩
  · simp [dictGet, dictSet]
  · simp
  · intro st2 h2
    exact invalidate_cache_removes st2 productId h2

/-- Claim C6, witness: `update(3, {})` stores id 3's record unchanged
and schedules its invalidation. -/
theorem C6_empty_patch_witness :
    dictGet 3 PRODUCTS_DB = some headphonesRec ∧
    (update_product { store := PRODUCTS_DB, cache := healthyCache [] } 3
        emptyUpdate).result = .ok headphonesRec ∧
    dictGet 3 (update_product { store := PRODUCTS_DB, cache := healthyCache [] }
        3 emptyUpdate).state.store = some headphonesRec ∧
    Event.scheduleInvalidate 3 ∈
      (update_product { store := PRODUCTS_DB, cache := healthyCache [] } 3
        emptyUpdate).events :=
  ⟨by decide,
   (C6_empty_patch _ 3 headphonesRec (by decide)).1,
   (C6_empty_patch _ 3 headphonesRec (by decide)).2.1,
   (C6_empty_patch _ 3 headphonesRec (by decide)).2.2.1⟩

/-- Claim C9: a successful `update(id, patch)` leaves the store's record
for every other identifier unchanged, and does not touch the cache
synchronously. -/
theorem C9_update_frame (st : SysState) (productId : Nat) (p : ProductUpdate)
    (r : Record) (j : Nat) (h : dictGet productId st.store = some r)
    (hne : j ≠ productId) :
    dictGet j (update_product st productId p).state.store =
      dictGet j st.store ∧
    (update_product st productId p).state.cache = st.cache := by
  rw [update_product_some st productId p r h]
  refine ⟨?_, rfl⟩
  rw [show dictGet j (dictSet productId (mergeRecord r p) st.store) =
    (if productId = j then some (mergeRecord r p) else dictGet j st.store)
    from rfl, if_neg (fun c => hne c.symm)]

/-- Claim C9, witness: updating id 1 leaves id 2's record alone. -/
theorem C9_update_frame_witness :
    dictGet 1 PRODUCTS_DB = some laptopRec ∧
    dictGet 2 (update_product { store := PRODUCTS_DB, cache := downCache } 1
      { name := some "Gaming Laptop", price := none }).state.store =
      dictGet 2 PRODUCTS_DB :=
  ⟨by decide,
   (C9_update_frame { store := PRODUCTS_DB, cache := downCache } 1
     { name := some "Gaming Laptop", price := none } laptopRec 2
     (by decide) (by decide)).1⟩

/-- Claim C10: `update` on an absent id fails with NotFound and has no
effect at all: the state (store and cache) is returned unchanged, the
trace holds only the store read, so no write happens and no invalidation
is scheduled. -/
theorem C10_notfound_no_side_effects (st : SysState) (productId : Nat)
    (p : ProductUpdate) (h : dictGet productId st.store = none) :
    (update_product st productId p).result = .error ApiError.notFound ∧
    (update_product st productId p).state = st ∧
    (update_product st productId p).events = [Event.storeGet productId] ∧
    Event.scheduleInvalidate productId ∉ (update_product st productId p).events ∧
    (∀ j u, Event.storePut j u ∉ (update_product st productId p).events) := by
  rw [update_product_none st productId p h]
  refine ⟨rfl, rfl, rfl, ?_, ?_⟩ <;> simp

/-- Claim C10, witness: `update(42, {name: "X"})` on the initial store is
a NotFound no-op. -/
theorem C10_notfound_no_side_effects_witness :
    dictGet 42 PRODUCTS_DB = none ∧
    (update_product { store := PRODUCTS_DB, cache := healthyCache [] } 42
      { name := some "X", price := none }).state =
      { store := PRODUCTS_DB, cache := healthyCache [] } :=
  ⟨by decide,
   (C10_notfound_no_side_effects { store := PRODUCTS_DB, cache := healthyCache [] }
     42 { name := some "X", price := none } (by decide)).2.1⟩

/-- Claim C4: cache-layer failures never surface.  With no live
connection (unset handle or failing ping), with a raising `GET`, with a
corrupt cached payload, or with a plain miss, `fetch` returns exactly the
no-cache (store-only) outcome; a failing `SET` is invisible in the
result; `update`'s result and store write are independent of the entire
cache state; and the invalidation task never touches the store. -/
theorem C4_cache_failures_absorbed :
    (∀ st productId, get_redis_connection st.cache = false →
      (get_product st productId).result = db_result st productId) ∧
    (∀ st productId, st.cache.getOk = false →
      (get_product st productId).result = db_result st productId) ∧
    (∀ st productId,
      dictGet (_product_cache_key productId) st.cache.data = some Payload.corrupt →
      (get_product st productId).result = db_result st productId) ∧
    (∀ st productId,
      dictGet (_product_cache_key productId) st.cache.data = none →
      (get_product st productId).result = db_result st productId) ∧
    (∀ st productId,
      (get_product { st with cache := downCache } productId).result =
        db_result st productId) ∧
    (∀ st c2 productId p,
      (update_product st productId p).result =
        (update_product { st with cache := c2 } productId p).result ∧
      (update_product st productId p).state.store =
        (update_product { st with cache := c2 } productId p).state.store) ∧
    (∀ st productId, (invalidate_cache st productId).1.store = st.store) := by
  have habsorb : ∀ st productId, cacheFastPath st.cache (_product_cache_key productId) = none →
      (get_product st productId).result = db_result st productId :=
    fun st productId hf => get_product_miss_result st productId hf
  refine ⟨?_, ?_, ?_, ?_, ?_, ?_, ?_⟩
  · intro st productId h
    exact habsorb st productId
      ((cacheFastPath_none_iff _ _).mpr (Or.inl (by simp [h])))
  · intro st productId h
    exact habsorb st productId
      ((cacheFastPath_none_iff _ _).mpr (Or.inl (by simp [h])))
  · intro st productId h
    exact habsorb st productId
      ((cacheFastPath_none_iff _ _).mpr (Or.inr (Or.inr h)))
  · intro st productId h
    exact habsorb st productId
      ((cacheFastPath_none_iff _ _).mpr (Or.inr (Or.inl h)))
  · intro st productId
    exact habsorb { st with cache := downCache } productId
      ((cacheFastPath_none_iff _ _).mpr (Or.inl rfl))
  · intro st c2 productId p
    cases hs : dictGet productId st.store with
    | none =>
      rw [update_product_none st productId p hs,
        update_product_none { st with cache := c2 } productId p hs]
      exact ⟨rfl, rfl⟩
    | some r =>
      rw [update_product_some st productId p r hs,
        update_product_some { st with cache := c2 } productId p r hs]
      exact ⟨rfl, rfl⟩
  · intro st productId
    exact invalidate_cache_store st productId

/-- Claim C4, witness: for id 2, the cache-down, raising-`GET` and
corrupt-payload outcomes all equal the store-only outcome, and an update
under a down cache matches one under a healthy cache. -/
theorem C4_cache_failures_absorbed_witness :
    (get_product { store := PRODUCTS_DB, cache := downCache } 2).result =
      db_result { store := PRODUCTS_DB, cache := downCache } 2 ∧
    (get_product { store := PRODUCTS_DB,
                   cache := { (healthyCache
                     [("product:2", Payload.good smartphoneRec)]) with
                     getOk := false } } 2).result =
      db_result { store := PRODUCTS_DB,
                  cache := { (healthyCache
                    [("product:2", Payload.good smartphoneRec)]) with
                    getOk := false } } 2 ∧
    (get_product { store := PRODUCTS_DB,
                   cache := healthyCache [("product:2", Payload.corrupt)] }
        2).result =
      db_result { store := PRODUCTS_DB,
                  cache := healthyCache [("product:2", Payload.corrupt)] } 2 ∧
    (update_product { store := PRODUCTS_DB, cache := downCache } 1
        emptyUpdate).result =
      (update_product { store := PRODUCTS_DB, cache := healthyCache [] } 1
        emptyUpdate).result :=
  ⟨C4_cache_failures_absorbed.1 _ 2 (by decide),
   C4_cache_failures_absorbed.2.1 _ 2 (by decide),
   C4_cache_failures_absorbed.2.2.1 _ 2 (by decide),
   (C4_cache_failures_absorbed.2.2.2.2.2.1
     { store := PRODUCTS_DB, cache := downCache } (healthyCache []) 1
     emptyUpdate).1⟩

/-- Claim C7: every cache access of `fetch` and of the invalidation task
uses exactly the key `"product:" ++ decimal id`, every cache write of
`fetch` carries a TTL of exactly 60 seconds, and the key format is the
decimal one on concrete ids. -/
theorem C7_key_and_ttl :
    (∀ productId, _product_cache_key productId =
      "product:" ++ natDecimal productId) ∧
    _product_cache_key 0 = "product:0" ∧
    _product_cache_key 327 = "product:327" ∧
    (∀ st productId k p t, Event.cacheSet k p t ∈ (get_product st productId).events →
      k = _product_cache_key productId ∧ t = 60) ∧
    (∀ st productId k, Event.cacheGet k ∈ (get_product st productId).events →
      k = _product_cache_key productId) ∧
    (∀ st productId k, Event.cacheDel k ∈ (invalidate_cache st productId).2 →
      k = _product_cache_key productId) := by
  refine ⟨fun _ => rfl, by decide, by decide, ?_, ?_, ?_⟩
  · intro st productId k p t hmem
    rcases get_product_events_cases st productId with h | h | h | ⟨prod, h⟩
    · rw [h] at hmem; simp at hmem
    · rw [h] at hmem; simp at hmem
    · rw [h] at hmem; simp at hmem
    · rw [h] at hmem
      simp at hmem
      exact ⟨hmem.1, hmem.2.2.trans rfl⟩
  · intro st productId k hmem
    rcases get_product_events_cases st productId with h | h | h | ⟨prod, h⟩
    · rw [h] at hmem
      simp at hmem
      exact hmem
    · rw [h] at hmem; simp at hmem
    · rw [h] at hmem
      simp at hmem
      exact hmem
    · rw [h] at hmem
      simp at hmem
      exact hmem
  · intro st productId k hmem
    revert hmem
    unfold invalidate_cache
    split
    · intro hmem
      simp at hmem
      exact hmem
    · intro hmem
      simp at hmem

/-- Claim C7, witness: a concrete repopulating fetch writes key
`product:2` with TTL 60. -/
theorem C7_key_and_ttl_witness :
    Event.cacheSet "product:2" (Payload.good smartphoneRec) 60 ∈
      (get_product { store := PRODUCTS_DB, cache := healthyCache [] } 2).events ∧
    "product:2" = _product_cache_key 2 :=
  ⟨by decide,
   ((C7_key_and_ttl.2.2.2.1 { store := PRODUCTS_DB, cache := healthyCache [] } 2
     "product:2" (Payload.good smartphoneRec) 60 (by decide)).1)⟩

theorem stepOp_hist_mono (ts : TraceState) (op : Op) (x : Nat × Record)
    (h : x ∈ ts.hist) : x ∈ (stepOp ts op).hist := by
  cases op with
  | fetch i => exact h
  | update i p =>
    cases hres : (update_product ts.sys i p).result with
    | ok u =>
      simp only [stepOp, hres]
      exact List.mem_cons_of_mem _ h
    | error e =>
      simp only [stepOp, hres]
      exact h
  | invalidate i => exact h
  | expire k => exact h
  | setHealth c pg g s d => exact h

theorem goodTrace_step (ts : TraceState) (op : Op) (hg : GoodTrace ts) :
    GoodTrace (stepOp ts op) := by
  obtain ⟨hstore, hcache⟩ := hg
  cases op with
  | fetch i =>
    constructor
    · intro j r hj
      simp only [stepOp] at hj ⊢
      rw [get_product_state_store ts.sys i] at hj
      exact hstore j r hj
    · intro j r hj
      simp only [stepOp] at hj ⊢
      rcases get_product_cache_cases ts.sys i with hc | ⟨prod, hprod, hc⟩
      · rw [hc] at hj
        exact hcache j r hj
      · rw [hc] at hj
        rw [show dictGet (_product_cache_key j)
            (dictSet (_product_cache_key i) (Payload.good prod) ts.sys.cache.data) =
          (if _product_cache_key i = _product_cache_key j then
            some (Payload.good prod)
          else dictGet (_product_cache_key j) ts.sys.cache.data) from rfl] at hj
        by_cases hk : _product_cache_key i = _product_cache_key j
        · rw [if_pos hk] at hj
          have hij : i = j := product_cache_key_injective i j hk
          have hr : prod = r := by
            have := Option.some.inj hj
            exact Payload.good.inj this
          rw [← hr, ← hij]
          exact hstore i prod hprod
        · rw [if_neg hk] at hj
          exact hcache j r hj
  | update i p =>
    cases hs : dictGet i ts.sys.store with
    | none =>
      have heq := update_product_none ts.sys i p hs
      constructor
      · intro j r hj
        simp only [stepOp, heq] at hj ⊢
        exact hstore j r hj
      · intro j r hj
        simp only [stepOp, heq] at hj ⊢
        exact hcache j r hj
    | some r0 =>
      have heq := update_product_some ts.sys i p r0 hs
      constructor
      · intro j r hj
        simp only [stepOp, heq] at hj ⊢
        rw [show dictGet j (dictSet i (mergeRecord r0 p) ts.sys.store) =
          (if i = j then some (mergeRecord r0 p) else dictGet j ts.sys.store)
          from rfl] at hj
        by_cases hij : i = j
        · rw [if_pos hij] at hj
          have hr := Option.some.inj hj
          rw [← hr, ← hij]
          exact List.mem_cons_self _ _
        · rw [if_neg hij] at hj
          exact List.mem_cons_of_mem _ (hstore j r hj)
      · intro j r hj
        simp only [stepOp, heq] at hj ⊢
        exact List.mem_cons_of_mem _ (hcache j r hj)
  | invalidate i =>
    constructor
    · intro j r hj
      simp only [stepOp] at hj ⊢
      rw [invalidate_cache_store ts.sys i] at hj
      exact hstore j r hj
    · intro j r hj
      simp only [stepOp] at hj ⊢
      rcases invalidate_cache_cache_cases ts.sys i with hc | hc
      · rw [hc] at hj
        exact hcache j r hj
      · rw [hc, dictGet_delKey] at hj
        by_cases hk : _product_cache_key j = _product_cache_key i
        · rw [if_pos hk] at hj
          exact Option.noConfusion hj
        · rw [if_neg hk] at hj
          exact hcache j r hj
  | expire k =>
    constructor
    · intro j r hj
      simp only [stepOp] at hj ⊢
      exact hstore j r hj
    · intro j r hj
      simp only [stepOp] at hj ⊢
      rw [dictGet_delKey] at hj
      by_cases hk : _product_cache_key j = k
      · rw [if_pos hk] at hj
        exact Option.noConfusion hj
      · rw [if_neg hk] at hj
        exact hcache j r hj
  | setHealth c pg g s d =>
    constructor
    · intro j r hj
      simp only [stepOp] at hj ⊢
      exact hstore j r hj
    · intro j r hj
      simp only [stepOp] at hj ⊢
      exact hcache j r hj

theorem goodTrace_runOps (store0 : List (Nat × Record)) (ops : List Op) :
    GoodTrace (runOps store0 ops) := by
  have hinit : GoodTrace (initTS store0) := by
    constructor
    · intro i r h
      exact dictGet_mem i store0 r h
    · intro i r h
      exact Option.noConfusion h
  have hgen : ∀ (l : List Op) (ts : TraceState),
      GoodTrace ts → GoodTrace (l.foldl stepOp ts) := by
    intro l
    induction l with
    | nil => intro ts h; exact h
    | cons op rest ih =>
      intro ts h
      exact ih (stepOp ts op) (goodTrace_step ts op h)
  exact hgen ops (initTS store0) hinit

/-- Claim C8: in every state reachable from an initial store by any
sequence of fetches, updates, invalidation runs, TTL expiries and cache
health changes, any record a fetch returns was at some prior point the
store's record for that id (initial contents or a record written by an
update) — no fabricated values, staleness aside. -/
theorem C8_no_fabricated_reads (store0 : List (Nat × Record)) (ops : List Op)
    (productId : Nat) (r : Record)
    (h : (get_product (runOps store0 ops).sys productId).result = .ok r) :
    (productId, r) ∈ (runOps store0 ops).hist := by
  have hg := goodTrace_runOps store0 ops
  rcases get_product_result_cases _ _ _ h with hc | hs
  · exact hg.2 productId r hc
  · exact hg.1 productId r hs

/-- Claim C8, witness: after a fetch populates the cache and an update
makes it stale, the next fetch returns the old record — which was the
store's record for id 1 at the start. -/
theorem C8_no_fabricated_reads_witness :
    (get_product (runOps PRODUCTS_DB c8ops).sys 1).result = .ok laptopRec ∧
    (1, laptopRec) ∈ (runOps PRODUCTS_DB c8ops).hist :=
  ⟨by decide, C8_no_fabricated_reads PRODUCTS_DB c8ops 1 laptopRec (by decide)⟩
